import Mathlib

/-!
Verification of the video-ingestion worker against its specification.

This file gives a shallow embedding, in Lean 4, of the parts of the
ingestion worker that the checked properties speak about:

* the MCP catalog tools (`query_fine_units`, `create_fine_unit`) from
  `ingestion_worker/domain/agentic/mcp_tools.py`;
* the annotators' result validator from
  `ingestion_worker/domain/agentic/annotators/word.py` (the phrase
  annotator's validator is textually identical);
* the agentic orchestrator's cache fallback and per-segment fan-out from
  `ingestion_worker/domain/agentic/orchestrators.py`;
* the Gemini function-call loop from
  `ingestion_worker/infrastructure/vertex.py`;
* the persistence layer from `ingestion_worker/domain/persistence.py`;
* the idempotency check, error handler and finalizer from
  `ingestion_worker/application/workflow.py`.

External collaborators (PostgreSQL, the Gemini API, the Lark notifier,
`hashlib.md5`, `json.loads`) are modelled as explicit state or as
function parameters, exactly at the granularity the source code
observes them: database tables are lists of rows, the outcome of one
SQL statement in a transaction is an oracle value, an LM conversation
is the sequence of replies it produces, and `md5` is an arbitrary
`String -> String` digest function.

Dynamically typed Python values (the dicts the LM returns) are embedded
as the inductive type `PVal`; Python `float` specials (`nan`, `inf`)
are separate constructors so that comparison chains behave as in Python.
-/

/-- A Python value as it appears in the JSON dicts this system passes
around: integers, finite floats (as rationals), the IEEE specials,
strings, dicts, lists, and `None`. -/
inductive PVal where
  | pint (i : Int)
  | pnum (q : Rat)
  | pnan
  | pinf
  | pninf
  | pstr (s : String)
  | pdict (fields : List (String × PVal))
  | plist (xs : List PVal)
  | pnone

/-- A Python dict with string keys. -/
abbrev PDict := List (String × PVal)

/-- Dict lookup, first binding wins (Python dicts have unique keys, so
an association list with at most one binding per key is faithful). -/
def dget (d : PDict) (k : String) : Option PVal :=
  (d.find? (fun p => p.1 == k)).map (fun p => p.2)

/-- Python `k in d`. -/
def dhas (d : PDict) (k : String) : Bool :=
  (dget d k).isSome

/-- Python truthiness of an optional string (`None` and the empty
string are falsy). -/
def truthy : Option String → Bool
  | some s => s ≠ ""
  | none => false

/-- SQL `LOWER` over the embedded strings (character-wise ASCII
lowering, structurally recursive so that concrete instances compute). -/
def lowerStr (s : String) : String :=
  ⟨s.data.map Char.toLower⟩

namespace MCP

/-- A row of the `semantic.fine_unit` table.  `pos` is nullable,
`external_key` is nullable and unique when present. -/
structure FineUnitRow where
  id : Int
  kind : String
  label : String
  lang : String
  pos : Option String
  defn : String
  status : String
  external_key : Option String
  deriving Repr, DecidableEq

/-- SQL equality between a nullable column and a nullable parameter:
`col = NULL` is never true in SQL. -/
def sqlEq (col param : Option String) : Bool :=
  match col, param with
  | some a, some b => a == b
  | _, _ => false

/-- The `POS_TO_DB` mapping of `mcp_tools.py`: full POS names to the
single-letter storage code; the phrase marker `N/A` maps to SQL NULL. -/
def POS_TO_DB : List (String × Option String) :=
  [("n", some "n"), ("v", some "v"), ("a", some "a"), ("r", some "r"),
   ("prep", some "p"), ("conj", some "c"), ("pron", some "m"),
   ("det", some "d"), ("interj", some "i"), ("N/A", none)]

/-- Python `POS_TO_DB.get(pos, pos)`: the mapped code when the key is
known, otherwise the argument itself. -/
def posToDb (pos : String) : Option String :=
  match POS_TO_DB.lookup pos with
  | some v => v
  | none => some pos

/-- One candidate returned to the LM.  Word-sense candidates carry a
`pos` key (itself nullable); phrase-sense candidates have no `pos` key,
which the outer `Option` records. -/
structure FineCandidate where
  fine_id : Int
  label : String
  pos : Option (Option String)
  definition : String
  deriving Repr, DecidableEq

/-- The WHERE clause of `_query_word_senses`: kind, case-insensitive
label, lang, active status, and the optional pos filter (`dbPos = none`
means the `AND pos = $3` clause is absent; `some p` compares with SQL
NULL semantics). -/
def wordCond (lem lang : String) (dbPos : Option (Option String))
    (r : FineUnitRow) : Bool :=
  r.kind == "word_sense" && lowerStr r.label == lowerStr lem &&
    r.lang == lang && r.status == "active" &&
    (match dbPos with
     | some p => sqlEq r.pos p
     | none => true)

/-- The WHERE clause of `_query_phrase_senses`. -/
def phraseCond (lem lang : String) (r : FineUnitRow) : Bool :=
  r.kind == "phrase_sense" && lowerStr r.label == lowerStr lem &&
    r.lang == lang && r.status == "active"

/-- The `if pos:` guard of `_query_word_senses`: no filter when `pos`
is absent or falsy (the empty string), otherwise the
`POS_TO_DB.get(pos, pos)` translation becomes the `AND pos = $3`
parameter. -/
def dbPosOf (pos : Option String) : Option (Option String) :=
  match pos with
  | some p => if p == "" then none else some (posToDb p)
  | none => none

/-- Embedding of `MCPTools._query_word_senses`: filter, `ORDER BY id`,
`LIMIT 50`, then project each row to a candidate dict. -/
def queryWordSenses (db : List FineUnitRow) (lem : String)
    (pos : Option String) (lang : String) : List FineCandidate :=
  let dbPos : Option (Option String) := dbPosOf pos
  let rows :=
    ((db.filter (wordCond lem lang dbPos)).mergeSort
      (fun a b => decide (a.id ≤ b.id))).take 50
  rows.map (fun r =>
    { fine_id := r.id, label := r.label, pos := some r.pos,
      definition := r.defn })

/-- Embedding of `MCPTools._query_phrase_senses`: filter only — the SQL
here has neither ORDER BY nor LIMIT. -/
def queryPhraseSenses (db : List FineUnitRow) (phrase lang : String) :
    List FineCandidate :=
  (db.filter (phraseCond phrase lang)).map (fun r =>
    { fine_id := r.id, label := r.label, pos := none,
      definition := r.defn })

/-- The result object of `MCPTools.query_fine_units`. -/
structure MCPQueryResult where
  candidates : List FineCandidate
  found : Bool
  deriving Repr, DecidableEq

/-- Embedding of `MCPTools.query_fine_units`: dispatch on `kind`,
unknown kinds yield an empty candidate list. -/
def query_fine_units (db : List FineUnitRow) (lem kind : String)
    (pos : Option String) (lang : String) : MCPQueryResult :=
  let candidates :=
    if kind == "word_sense" then queryWordSenses db lem pos lang
    else if kind == "phrase_sense" then queryPhraseSenses db lem lang
    else []
  { candidates := candidates, found := candidates.length > 0 }

/-- The catalog database state: the `semantic.fine_unit` rows plus the
sequence value backing the `id` column. -/
structure CatalogDB where
  rows : List FineUnitRow
  next_id : Int
  deriving Repr, DecidableEq

/-- The dict `MCPTools.create_fine_unit` returns. -/
structure CreateResult where
  fine_id : Int
  lemma_ : String
  pos : Option String
  defn : String
  status : String
  note : String
  deriving Repr, DecidableEq

/-- Embedding of `MCPTools.create_fine_unit`.  `md5hex` stands for
`hashlib.md5(...).hexdigest()`; the code takes its first 8 characters.
If a row with the computed `external_key` exists it is returned and the
database is untouched, otherwise a `pending` row is inserted.  The
insert branch reports `row["pos"] or "N/A"`, so a NULL or empty stored
pos surfaces as the string `N/A`. -/
def create_fine_unit (md5hex : String → String) (gemini_model : String)
    (lem kind pos definition lang : String) (db : CatalogDB) :
    CreateResult × CatalogDB :=
  let def_hash := (md5hex definition).take 8
  let external_key := gemini_model ++ ":" ++ lem ++ ":def_" ++ def_hash
  match db.rows.find? (fun r => r.external_key == some external_key) with
  | some existing =>
      ({ fine_id := existing.id, lemma_ := existing.label,
         pos := existing.pos, defn := existing.defn,
         status := existing.status,
         note := "Already exists in database" }, db)
  | none =>
      let db_pos := posToDb pos
      let newRow : FineUnitRow :=
        { id := db.next_id, kind := kind, label := lem, lang := lang,
          pos := db_pos, defn := definition, status := "pending",
          external_key := some external_key }
      ({ fine_id := newRow.id, lemma_ := newRow.label,
         pos := some (match db_pos with
                      | some p => if p == "" then "N/A" else p
                      | none => "N/A"),
         defn := newRow.defn, status := "pending",
         note := "Created by Gemini, pending manual review" },
       { rows := db.rows ++ [newRow], next_id := db.next_id + 1 })

end MCP

namespace Annotators

/-- The `required` field list of `WordAnnotator.validate_annotation`
(the phrase annotator uses the same list). -/
def REQUIRED_FIELDS : List String :=
  ["segment_index", "fine_id", "span", "rationale",
   "visual_comprehensibility", "textual_comprehensibility"]

/-- Python `isinstance(v, (int, float)) and (0.0 <= v <= 1.0)`: `nan`
fails the first comparison, the infinities fail one of the two, so only
finite numbers in the unit interval pass. -/
def scoreOk : Option PVal → Bool
  | some (.pint i) => decide (0 ≤ i) && decide (i ≤ 1)
  | some (.pnum q) => decide (0 ≤ q) && decide (q ≤ 1)
  | _ => false

/-- Python `isinstance(v, int)` on a dict entry. -/
def isInt : Option PVal → Bool
  | some (.pint _) => true
  | _ => false

/-- The three span checks of the validator, in source order: the value
is a dict with `start` and `end` keys, both integers, and
`0 <= start < end <= text_len`. -/
def spanOk (v : Option PVal) (segment_text : String) : Bool :=
  match v with
  | some (.pdict sp) =>
    match dget sp "start", dget sp "end" with
    | some (.pint s), some (.pint e) =>
      decide (0 ≤ s) && decide (s < e) &&
        decide (e ≤ (segment_text.length : Int))
    | _, _ => false
  | _ => false

/-- The rationale check: `isinstance(r, str) and len(r) != 0`. -/
def rationaleOk : Option PVal → Bool
  | some (.pstr r) => r.length != 0
  | _ => false

/-- Embedding of `WordAnnotator.validate_annotation` (and, identically,
`PhraseAnnotator.validate_annotation`), whose early-return chain is the
short-circuit conjunction of its checks in source order: required
fields present, `segment_index` and `fine_id` integers, both
comprehensibility scores finite numbers in the unit interval, `span` a
dict of integer `start` and `end` with
`0 <= start < end <= len(segment["text"])`, and a non-empty string
rationale.  The validator receives only the candidate dict and the
segment; it is not told which segment index is being processed. -/
def validateAnn (ann : PDict) (segment_text : String) : Bool :=
  REQUIRED_FIELDS.all (fun k => dhas ann k) &&
    isInt (dget ann "segment_index") &&
    isInt (dget ann "fine_id") &&
    scoreOk (dget ann "visual_comprehensibility") &&
    scoreOk (dget ann "textual_comprehensibility") &&
    spanOk (dget ann "span") segment_text &&
    rationaleOk (dget ann "rationale")

end Annotators

namespace Orchestrator

/-- Which cache the fallback ladder produced. -/
inductive CacheTag where
  | multimodal
  | textOnly
  deriving Repr, DecidableEq

/-- Embedding of
`AgenticOrchestrator._create_cached_content_with_fallback`.  The two
booleans say whether multimodal (resp. text-only) cache creation
succeeds (`_create_cached_content` wraps every failure in
`VertexError`, which is exactly what the fallback catches).  The
multimodal attempt is only made when `video_uri` is truthy. -/
def create_cached_content_with_fallback (video_uri : Option String)
    (multimodal_ok text_ok : Bool) : Option CacheTag × String :=
  if truthy video_uri && multimodal_ok then (some .multimodal, "gemini_video")
  else if text_ok then (some .textOnly, "gemini_text")
  else (none, "gemini_nocache")

/-- Embedding of `AgenticOrchestrator._process_segment`, abstracting
the Gemini call for one (segment, annotator) pair to its observable
outcome: `VertexError` (caught, yielding no results) or the parsed
response's annotations list, which is then filtered by the annotator's
validator.  `segment_index` is used only to build the prompt; it never
reaches the validator. -/
def process_segment (segment_text : String) (segment_index : Nat)
    (lmOutcome : Except String (List PDict)) : List PDict :=
  let _ := segment_index
  match lmOutcome with
  | .error _ => []
  | .ok anns => anns.filter (fun a => Annotators.validateAnn a segment_text)

/-- One per-segment task of `_process_segments_concurrent`: the
segment's text and the outcomes of the two LM conversations the task
runs (phrase annotator first, then word annotator). -/
structure SegTask where
  text : String
  phraseOutcome : Except String (List PDict)
  wordOutcome : Except String (List PDict)

/-- The body of `process_one(idx, segment)`: phrase results first, then
word results. -/
def process_one (idx : Nat) (t : SegTask) : List PDict :=
  process_segment t.text idx t.phraseOutcome ++
    process_segment t.text idx t.wordOutcome

/-- The `enumerate` + `asyncio.gather` + merge of
`_process_segments_concurrent`: `gather` returns task results in task
creation order, and the merge extends the output list in that order. -/
def processSegmentsGo : Nat → List SegTask → List PDict
  | _, [] => []
  | i, t :: rest => process_one i t ++ processSegmentsGo (i + 1) rest

/-- Embedding of `AgenticOrchestrator._process_segments_concurrent`. -/
def process_segments_concurrent (tasks : List SegTask) : List PDict :=
  processSegmentsGo 0 tasks

end Orchestrator

namespace Vertex

/-- One part of a Gemini reply: a function call or text. -/
inductive RPart where
  | fnCall (name : String) (args : PDict)
  | textPart (text : String)

/-- One candidate of a Gemini reply (its `content.parts`). -/
structure RCandidate where
  parts : List RPart

/-- A Gemini reply. -/
structure GReply where
  candidates : List RCandidate

/-- `max_iterations` in `VertexClient.call_with_tools`. -/
def MAX_ITERATIONS : Nat := 10

/-- Embedding of `VertexClient._extract_function_calls`: every
function-call part of every candidate, in reply order. -/
def extract_function_calls (r : GReply) : List (String × PDict) :=
  (r.candidates.map (fun c => c.parts.filterMap (fun p =>
    match p with
    | .fnCall n a => some (n, a)
    | .textPart _ => none))).flatten

/-- A `Part.from_function_response` sent back to Gemini: the handler's
value under a `result` key, or the raised exception's text under an
`error` key. -/
inductive FnResponse where
  | success (name : String) (value : PVal)
  | failure (name : String) (msg : String)

/-- Executing one function call through the tool handler, exceptions
becoming error responses. -/
def exec_tool (handler : String → PDict → Except String PVal)
    (fc : String × PDict) : FnResponse :=
  match handler fc.1 fc.2 with
  | .ok v => .success fc.1 v
  | .error m => .failure fc.1 m

/-- One executed iteration of the function-call loop: the calls found
in the reply and the gathered responses sent back in a single message. -/
structure LoopTurn where
  calls : List (String × PDict)
  responses : List FnResponse

/-- Embedding of `VertexClient._parse_response`.  `parseText` stands
for the markdown-fence stripping, brace slicing and `json.loads`
pipeline applied to the first part's text; no candidates is an error;
empty `parts` yields `{"annotations": []}`; reading `.text` off a
function-call part raises, which surfaces as a `VertexError`. -/
def parse_response (parseText : String → Except String PVal)
    (r : GReply) : Except String PVal :=
  match r.candidates with
  | [] => .error "No candidates in response"
  | c :: _ =>
    match c.parts with
    | [] => .ok (.pdict [("annotations", .plist [])])
    | p :: _ =>
      match p with
      | .textPart t => parseText t
      | .fnCall _ _ => .error "Failed to parse response"

/-- The `while iteration < max_iterations` loop of `call_with_tools`.
`fuel` is the number of remaining iterations, `sent` the number of
function-response messages sent so far; `replies k` is the model's
reply to the `k`-th message of the conversation (`replies 0` answers
the initial prompt).  Each iteration either returns the parse of the
current reply (no function calls) or executes every call in order,
sends the batch, and continues; exhausted fuel parses the last reply. -/
def cwtLoop (parseText : String → Except String PVal)
    (handler : String → PDict → Except String PVal)
    (replies : Nat → GReply) :
    Nat → Nat → GReply → List LoopTurn × Except String PVal
  | 0, _, resp => ([], parse_response parseText resp)
  | fuel + 1, sent, resp =>
    let calls := extract_function_calls resp
    if calls.isEmpty then ([], parse_response parseText resp)
    else
      let rs := calls.map (exec_tool handler)
      let next := cwtLoop parseText handler replies fuel (sent + 1)
        (replies (sent + 1))
      ({ calls := calls, responses := rs } :: next.1, next.2)

/-- Embedding of `VertexClient.call_with_tools` (its conversation
loop): result is the executed turns plus the final parse outcome. -/
def call_with_tools (parseText : String → Except String PVal)
    (handler : String → PDict → Except String PVal)
    (replies : Nat → GReply) : List LoopTurn × Except String PVal :=
  cwtLoop parseText handler replies MAX_ITERATIONS 0 (replies 0)

end Vertex

namespace Persist

/-- What the database does with one occurrence INSERT inside the
transaction: a fresh row (`INSERT 0 1`), the unique-constraint conflict
swallowed by `DO NOTHING` (`INSERT 0 0`), an
`asyncpg.ForeignKeyViolationError`, or any other
`asyncpg.PostgresError` (which includes the
`current transaction is aborted` errors every statement after a failure
raises). -/
inductive InsOutcome where
  | acceptedNew
  | conflictIgnored
  | fkViolation (msg : String)
  | dbError (msg : String)
  deriving Repr, DecidableEq

/-- A row of the `occurrence` table as `_insert_occurrences` builds it. -/
structure OccRow where
  segment_id : Int
  fine_id : PVal
  reliability_score : PVal
  detection_method : String
  evidence : PVal
  ontology_ver : String

/-- Python list indexing on the segment-id vector: non-negative indices
are positional, negative ones count from the end, anything else raises
`IndexError`. -/
def pyIndex (l : List Int) (i : Int) : Option Int :=
  if 0 ≤ i then l.get? i.toNat
  else if i.natAbs ≤ l.length then l.get? (l.length - i.natAbs)
  else none

/-- The `evidence` dict `_insert_occurrences` serialises: the raw span
(default `{}`), rationale (default `""`) and the two comprehensibility
values (default `None`). -/
def mkEvidence (ann : PDict) : PVal :=
  .pdict [("span", (dget ann "span").getD (.pdict [])),
          ("rationale", (dget ann "rationale").getD (.pstr "")),
          ("visual_comprehensibility",
            (dget ann "visual_comprehensibility").getD .pnone),
          ("textual_comprehensibility",
            (dget ann "textual_comprehensibility").getD .pnone)]

/-- Running state of the `_insert_occurrences` loop: the two counters,
whether a first error has been recorded, and the rows inserted so
far. -/
structure OccState where
  inserted : Nat
  skipped : Nat
  firstErr : Option String
  rows : List OccRow

/-- The per-annotation loop of `PersistenceService._insert_occurrences`
over (annotation, database outcome) pairs.  Control flow mirrors the
source: a `None` segment_index or one `>= len(segment_ids)` is a clean
skip; a negative index resolves through Python indexing (an in-range
negative one silently addresses a segment from the end, an out-of-range
one raises `IndexError`, landing in the generic handler); a missing
`fine_id` raises `KeyError`, likewise; a foreign-key violation is
skipped and counted; any other database error is re-raised only when it
is the recorded first error, otherwise tallied as skipped. -/
def insertOccGo (segment_ids : List Int) (method ontology_ver : String) :
    OccState → List (PDict × InsOutcome) →
    Except String (Nat × Nat × List OccRow)
  | st, [] => .ok (st.inserted, st.skipped, st.rows)
  | st, (ann, outcome) :: rest =>
    match dget ann "segment_index" with
    | none =>
      insertOccGo segment_ids method ontology_ver
        { st with skipped := st.skipped + 1 } rest
    | some .pnone =>
      insertOccGo segment_ids method ontology_ver
        { st with skipped := st.skipped + 1 } rest
    | some (.pint si) =>
      if (segment_ids.length : Int) ≤ si then
        insertOccGo segment_ids method ontology_ver
          { st with skipped := st.skipped + 1 } rest
      else
        match pyIndex segment_ids si with
        | none =>
          insertOccGo segment_ids method ontology_ver
            { st with
              skipped := st.skipped + 1
              firstErr := st.firstErr <|> some "IndexError" } rest
        | some segment_id =>
          match dget ann "fine_id" with
          | none =>
            insertOccGo segment_ids method ontology_ver
              { st with
                skipped := st.skipped + 1
                firstErr := st.firstErr <|> some "KeyError" } rest
          | some fid =>
            match outcome with
            | .acceptedNew =>
              let row : OccRow :=
                { segment_id := segment_id, fine_id := fid,
                  reliability_score :=
                    (dget ann "score").getD (.pnum (1 / 2)),
                  detection_method := method,
                  evidence := mkEvidence ann,
                  ontology_ver := ontology_ver }
              insertOccGo segment_ids method ontology_ver
                { st with
                  inserted := st.inserted + 1
                  rows := st.rows ++ [row] } rest
            | .conflictIgnored =>
              insertOccGo segment_ids method ontology_ver st rest
            | .fkViolation m =>
              insertOccGo segment_ids method ontology_ver
                { st with
                  skipped := st.skipped + 1
                  firstErr := st.firstErr <|> some m } rest
            | .dbError m =>
              match st.firstErr with
              | none => .error m
              | some _ =>
                insertOccGo segment_ids method ontology_ver
                  { st with skipped := st.skipped + 1 } rest
    | some (.pnum q) =>
      if (segment_ids.length : Rat) ≤ q then
        insertOccGo segment_ids method ontology_ver
          { st with skipped := st.skipped + 1 } rest
      else
        insertOccGo segment_ids method ontology_ver
          { st with
            skipped := st.skipped + 1
            firstErr := st.firstErr <|> some "TypeError" } rest
    | some .pinf =>
      insertOccGo segment_ids method ontology_ver
        { st with skipped := st.skipped + 1 } rest
    | some _ =>
      insertOccGo segment_ids method ontology_ver
        { st with
          skipped := st.skipped + 1
          firstErr := st.firstErr <|> some "TypeError" } rest

/-- Embedding of `PersistenceService._insert_occurrences`: returns the
`(inserted, skipped)` counters plus the occurrence rows written, or the
first non-tolerated database error, which aborts the transaction. -/
def insert_occurrences (segment_ids : List Int)
    (anns : List (PDict × InsOutcome)) (method ontology_ver : String) :
    Except String (Nat × Nat × List OccRow) :=
  insertOccGo segment_ids method ontology_ver
    { inserted := 0, skipped := 0, firstErr := none, rows := [] } anns

/-- Declarative, position-independent classification of what
`_insert_occurrences` does with one (annotation, outcome) pair: a clean
skip (no exception), a successful insert carrying the row written, a
swallowed conflict, a non-database exception (`IndexError`, `KeyError`,
`TypeError`), a tolerated foreign-key violation, or a database error
that is fatal if this pair is the first to fail. -/
inductive AnnClass where
  | cleanSkip
  | insertedRow (row : OccRow)
  | conflict
  | genericFail (msg : String)
  | fkFail (msg : String)
  | dbFail (msg : String)

/-- The classification function matching the loop's branch structure. -/
def classify (segment_ids : List Int) (method ontology_ver : String)
    (a : PDict × InsOutcome) : AnnClass :=
  match dget a.1 "segment_index" with
  | none => .cleanSkip
  | some .pnone => .cleanSkip
  | some (.pint si) =>
    if (segment_ids.length : Int) ≤ si then .cleanSkip
    else
      match pyIndex segment_ids si with
      | none => .genericFail "IndexError"
      | some segment_id =>
        match dget a.1 "fine_id" with
        | none => .genericFail "KeyError"
        | some fid =>
          match a.2 with
          | .acceptedNew =>
            .insertedRow
              { segment_id := segment_id, fine_id := fid,
                reliability_score :=
                  (dget a.1 "score").getD (.pnum (1 / 2)),
                detection_method := method,
                evidence := mkEvidence a.1,
                ontology_ver := ontology_ver }
          | .conflictIgnored => .conflict
          | .fkViolation m => .fkFail m
          | .dbError m => .dbFail m
  | some (.pnum q) =>
    if (segment_ids.length : Rat) ≤ q then .cleanSkip
    else .genericFail "TypeError"
  | some .pinf => .cleanSkip
  | some _ => .genericFail "TypeError"

/-- Whether the pair reaches one of the exception handlers. -/
def isFailClass : AnnClass → Bool
  | .genericFail _ => true
  | .fkFail _ => true
  | .dbFail _ => true
  | _ => false

/-- Whether the pair ends up counted as skipped (a clean skip or any
handled exception). -/
def isSkipClass : AnnClass → Bool
  | .cleanSkip => true
  | .genericFail _ => true
  | .fkFail _ => true
  | .dbFail _ => true
  | _ => false

/-- Whether the pair performs a counted insert. -/
def isInsClass : AnnClass → Bool
  | .insertedRow _ => true
  | _ => false

/-- The row a pair inserts, if any. -/
def rowOfClass : AnnClass → Option OccRow
  | .insertedRow r => some r
  | _ => none

/-- Number of counted inserts among the pairs. -/
def countIns (segment_ids : List Int) (method ontology_ver : String)
    (anns : List (PDict × InsOutcome)) : Nat :=
  anns.countP (fun a => isInsClass (classify segment_ids method ontology_ver a))

/-- Number of pairs tallied as skipped when no error aborts the run. -/
def countSkip (segment_ids : List Int) (method ontology_ver : String)
    (anns : List (PDict × InsOutcome)) : Nat :=
  anns.countP (fun a => isSkipClass (classify segment_ids method ontology_ver a))

/-- The occurrence rows written, in input order. -/
def rowsOf (segment_ids : List Int) (method ontology_ver : String)
    (anns : List (PDict × InsOutcome)) : List OccRow :=
  anns.filterMap (fun a => rowOfClass (classify segment_ids method ontology_ver a))

/-- The error the batch raises, if any: the message of the first
failing pair when — and only when — that first failure is a database
error other than a foreign-key violation. -/
def firstRaise (segment_ids : List Int) (method ontology_ver : String)
    (anns : List (PDict × InsOutcome)) : Option String :=
  match anns.find? (fun a =>
      isFailClass (classify segment_ids method ontology_ver a)) with
  | some a =>
    match classify segment_ids method ontology_ver a with
    | .dbFail msg => some msg
    | _ => none
  | none => none

end Persist

namespace Ingest

/-- A row of the `video` table (the columns the embedded code reads or
writes). -/
structure VideoRow where
  id : Int
  video_uid : String
  status : String
  storage_path : String
  hls_path : Option String
  structured_transcript_path : Option String
  updated_at : Int
  deriving Repr, DecidableEq

/-- A row of the `ingest_jobs` table. -/
structure JobRow where
  object_key : String
  etag : String
  video_uid : String
  video_id : Int
  status : String
  started_at : Option Int
  finished_at : Option Int
  retry_count : Int
  err : Option String
  deriving Repr, DecidableEq

/-- The mutable database state the workflow touches, with the sequence
behind `video.id`. -/
structure DBState where
  jobs : List JobRow
  videos : List VideoRow
  next_video_id : Int
  deriving Repr, DecidableEq

/-- The `IngestJob` dataclass instance `_check_idempotency` returns. -/
structure IngestJobRec where
  object_key : String
  etag : String
  video_uid : String
  video_id : Int
  status : String
  retry_count : Int
  deriving Repr, DecidableEq

/-- The fields of a decoded Pub/Sub message that the idempotency check
reads. -/
structure PubSubMsg where
  object_name : String
  etag : String
  video_uid : String
  deriving Repr, DecidableEq

/-- `PROCESSING_TIMEOUT_SECONDS` in `workflow.py`. -/
def PROCESSING_TIMEOUT_SECONDS : Int := 3600

/-- Embedding of `IngestVideoWorkflow._get_or_create_video`: reuse the
row for this `video_uid` or insert one with status `PROCESSING`. -/
def get_or_create_video (raw_bucket video_uid object_name : String)
    (st : DBState) : Int × DBState :=
  match st.videos.find? (fun v => v.video_uid == video_uid) with
  | some v => (v.id, st)
  | none =>
    let row : VideoRow :=
      { id := st.next_video_id, video_uid := video_uid,
        status := "PROCESSING",
        storage_path := "gs://" ++ raw_bucket ++ "/" ++ object_name,
        hls_path := none, structured_transcript_path := none,
        updated_at := 0 }
    (row.id,
     { st with
       videos := st.videos ++ [row]
       next_video_id := st.next_video_id + 1 })

/-- The `WHERE object_key = $1 AND etag = $2` predicate. -/
def jobMatch (m : PubSubMsg) (r : JobRow) : Bool :=
  r.object_key == m.object_name && r.etag == m.etag

/-- The `IngestJob` record built from an existing row. -/
def recOfRow (r : JobRow) : IngestJobRec :=
  { object_key := r.object_key, etag := r.etag,
    video_uid := r.video_uid, video_id := r.video_id,
    status := r.status, retry_count := r.retry_count }

/-- Embedding of `IngestVideoWorkflow._check_idempotency`.  `now` is
the current epoch second.  An existing `done` row stops with
`Task already completed`; an existing `processing` row within the
timeout stops with `Task already processing`; a timed-out `processing`
row is reset to `queued` (started_at cleared, retry_count bumped) and
the stale record is returned; any other existing row — `error` or
`queued`, or `processing` with a NULL `started_at` — is returned
unchanged; only when no row exists are a video row (possibly) and a
fresh `processing` job row inserted. -/
def check_idempotency (now : Int) (raw_bucket : String) (m : PubSubMsg)
    (st : DBState) : Except String (IngestJobRec × DBState) :=
  match st.jobs.find? (jobMatch m) with
  | some row =>
    if row.status == "done" then .error "Task already completed"
    else if row.status == "processing" then
      match row.started_at with
      | some t =>
        if now - t < PROCESSING_TIMEOUT_SECONDS then
          .error "Task already processing"
        else
          let jobs := st.jobs.map (fun r =>
            if jobMatch m r then
              { r with
                status := "queued"
                started_at := none
                retry_count := r.retry_count + 1 }
            else r)
          .ok (recOfRow row, { st with jobs := jobs })
      | none => .ok (recOfRow row, st)
    else .ok (recOfRow row, st)
  | none =>
    let vres := get_or_create_video raw_bucket m.video_uid m.object_name st
    let newRow : JobRow :=
      { object_key := m.object_name, etag := m.etag,
        video_uid := m.video_uid, video_id := vres.1,
        status := "processing", started_at := some now,
        finished_at := none, retry_count := 0, err := none }
    .ok ({ object_key := m.object_name, etag := m.etag,
           video_uid := m.video_uid, video_id := vres.1,
           status := "processing", retry_count := 0 },
         { vres.2 with jobs := vres.2.jobs ++ [newRow] })

/-- The structured Lark card `_handle_error` dispatches. -/
structure LarkCard where
  error_type : String
  error_message : String
  video_uid : String
  deriving Repr, DecidableEq

/-- Embedding of `IngestVideoWorkflow._handle_error`: set
`status='error'`, the message and `finished_at` on this video's
`ingest_jobs` rows `WHERE ... AND status = 'processing'`, set the
video's status to `ERROR`, and send a fatal notification. -/
def handle_error (now : Int) (video_uid error_type error_message : String)
    (st : DBState) : DBState × List LarkCard :=
  let jobs := st.jobs.map (fun r =>
    if r.video_uid == video_uid && r.status == "processing" then
      { r with
        status := "error"
        err := some error_message
        finished_at := some now }
    else r)
  let videos := st.videos.map (fun v =>
    if v.video_uid == video_uid then { v with status := "ERROR" } else v)
  ({ st with jobs := jobs, videos := videos },
   [{ error_type := error_type, error_message := error_message,
      video_uid := video_uid }])

/-- The row update performed by `PersistenceService.update_video_status`
on a matching row: the SET list always contains `status` and
`updated_at`, contains `hls_path` only when the argument is truthy, and
`structured_transcript_path` only when that argument is truthy. -/
def updateVideoRow (video_id : Int) (status : String)
    (hls_path transcript_path : Option String) (now : Int)
    (v : VideoRow) : VideoRow :=
  if v.id == video_id then
    { v with
      status := status
      updated_at := now
      hls_path := if truthy hls_path then hls_path else v.hls_path
      structured_transcript_path :=
        if truthy transcript_path then transcript_path
        else v.structured_transcript_path }
  else v

/-- Embedding of `PersistenceService.update_video_status` over the
`video` table. -/
def update_video_status (video_id : Int) (status : String)
    (hls_path transcript_path : Option String) (now : Int)
    (videos : List VideoRow) : List VideoRow :=
  videos.map (updateVideoRow video_id status hls_path transcript_path now)

end Ingest

/-! Concrete instances used by the closed checks below. -/

namespace Fixtures

/-- A catalog with 51 active phrase-sense rows all labelled
`give up`. -/
def phraseDb : List MCP.FineUnitRow :=
  (List.range 51).map (fun i =>
    { id := (i : Int), kind := "phrase_sense", label := "give up",
      lang := "en", pos := none, defn := "stop trying",
      status := "active", external_key := none })

/-- An otherwise well-formed LM annotation whose `segment_index`
is -1. -/
def annNeg : PDict :=
  [("segment_index", .pint (-1)), ("fine_id", .pint 7),
   ("span", .pdict [("start", .pint 0), ("end", .pint 1)]),
   ("rationale", .pstr "r"),
   ("visual_comprehensibility", .pnum 1),
   ("textual_comprehensibility", .pint 0)]

/-- A well-formed LM annotation for segment 0. -/
def annZero : PDict :=
  [("segment_index", .pint 0), ("fine_id", .pint 7),
   ("span", .pdict [("start", .pint 0), ("end", .pint 1)]),
   ("rationale", .pstr "r"),
   ("visual_comprehensibility", .pnum 1),
   ("textual_comprehensibility", .pint 0)]

/-- An otherwise well-formed LM annotation whose `segment_index`
is 5. -/
def annFive : PDict :=
  [("segment_index", .pint 5), ("fine_id", .pint 1),
   ("span", .pdict [("start", .pint 0), ("end", .pint 1)]),
   ("rationale", .pstr "r"),
   ("visual_comprehensibility", .pnum 1),
   ("textual_comprehensibility", .pint 0)]

/-- An `ingest_jobs` row in state `error` for key `(k, e)`. -/
def jobErr : Ingest.JobRow :=
  { object_key := "k", etag := "e", video_uid := "u", video_id := 1,
    status := "error", started_at := none, finished_at := none,
    retry_count := 2, err := some "boom" }

/-- An `ingest_jobs` row in state `queued` for video `u` (the state a
timed-out job is reset to). -/
def jobQueued : Ingest.JobRow :=
  { object_key := "k", etag := "e", video_uid := "u", video_id := 1,
    status := "queued", started_at := none, finished_at := none,
    retry_count := 1, err := none }

/-- An `ingest_jobs` row in state `processing` for video `u`. -/
def jobProc : Ingest.JobRow :=
  { object_key := "k", etag := "e", video_uid := "u", video_id := 1,
    status := "processing", started_at := some 10, finished_at := none,
    retry_count := 0, err := none }

/-- A video row for `u`. -/
def videoU : Ingest.VideoRow :=
  { id := 1, video_uid := "u", status := "PROCESSING",
    storage_path := "gs://raw/k", hls_path := some "gs://hls/u/x.m3u8",
    structured_transcript_path := none, updated_at := 3 }

/-- Database state holding only the `error` job row. -/
def stErr : Ingest.DBState :=
  { jobs := [jobErr], videos := [videoU], next_video_id := 5 }

/-- Database state holding the `queued` job row. -/
def stQueued : Ingest.DBState :=
  { jobs := [jobQueued], videos := [videoU], next_video_id := 5 }

/-- Database state holding the `processing` job row. -/
def stProc : Ingest.DBState :=
  { jobs := [jobProc], videos := [videoU], next_video_id := 5 }

/-- The Pub/Sub message for key `(k, e)`. -/
def msgK : Ingest.PubSubMsg :=
  { object_name := "k", etag := "e", video_uid := "u" }

/-- A stand-in md5 hex digest. -/
def md5h : String → String := fun _ => "0123456789abcdef0123456789abcdef"

/-- An empty catalog whose id sequence is at 100. -/
def emptyCatalog : MCP.CatalogDB := { rows := [], next_id := 100 }

/-- A one-row word-sense catalog (capitalised label, to exercise the
case-insensitive match). -/
def wordDb : List MCP.FineUnitRow :=
  [{ id := 3, kind := "word_sense", label := "Run", lang := "en",
     pos := some "v", defn := "move fast", status := "active",
     external_key := none }]

/-- A Gemini conversation: the first reply asks for one tool call, the
second is a plain text reply. -/
def replies1 : Nat → Vertex.GReply
  | 0 => { candidates := [{ parts := [.fnCall "query_fine_units"
            [("lemma", .pstr "run")]] }] }
  | _ => { candidates := [{ parts := [.textPart "done"] }] }

/-- A handler answering every call with an empty candidate list. -/
def handler1 : String → PDict → Except String PVal :=
  fun _ _ => .ok (.pdict [("candidates", .plist [])])

/-- A text parser accepting only the literal reply `done`. -/
def parseText1 : String → Except String PVal :=
  fun t => if t == "done" then .ok (.pdict [("annotations", .plist [])])
           else .error "Invalid JSON response"

end Fixtures

/-! The claim checks. -/

open MCP Persist Ingest Orchestrator Annotators Vertex Fixtures

/-- C10: `update_video_status(video_id, status, hls_path?,
transcript_path?)` writes `status` and `updated_at` on the matching
video row, writes `hls_path` only when a non-empty `hls_path` argument
is supplied and `structured_transcript_path` only when a non-empty
`transcript_path` argument is supplied, leaves every other column and
every other row unchanged, and in particular `hls_path = None` never
overwrites an existing `hls_path` with NULL. -/
theorem update_video_status_frame (video_id : Int) (status : String)
    (hls_path transcript_path : Option String) (now : Int)
    (videos : List Ingest.VideoRow) (k : Nat) (v : Ingest.VideoRow)
    (hv : videos[k]? = some v) :
    ∃ v', (update_video_status video_id status hls_path transcript_path
        now videos)[k]? = some v' ∧
      (v.id ≠ video_id → v' = v) ∧
      (v.id = video_id →
        v'.id = v.id ∧ v'.video_uid = v.video_uid ∧
        v'.storage_path = v.storage_path ∧
        v'.status = status ∧ v'.updated_at = now ∧
        v'.hls_path = (if truthy hls_path then hls_path else v.hls_path) ∧
        v'.structured_transcript_path =
          (if truthy transcript_path then transcript_path
           else v.structured_transcript_path) ∧
        (hls_path = none → v'.hls_path = v.hls_path) ∧
        (transcript_path = none →
          v'.structured_transcript_path =
            v.structured_transcript_path)) := by
  refine ⟨updateVideoRow video_id status hls_path transcript_path now v,
    ?_, ?_, ?_⟩
  · simp [update_video_status, List.getElem?_map, hv]
  · intro hne
    simp [updateVideoRow, hne]
  · intro he
    have hc : (v.id == video_id) = true := by simp [he]
    refine ⟨?_, ?_, ?_, ?_, ?_, ?_, ?_, ?_, ?_⟩ <;>
      first
        | (rintro rfl; simp [updateVideoRow, hc, truthy])
        | (simp only [updateVideoRow, hc, if_true])

/-- Witness for the C10 check at a concrete row: status `READY`,
no `hls_path` argument, a transcript path, video id 1. -/
theorem update_video_status_frame_witness :
    ∃ v', (update_video_status 1 "READY" none (some "gs://t/a.json") 7
        [Fixtures.videoU])[0]? = some v' ∧
      (Fixtures.videoU.id ≠ 1 → v' = Fixtures.videoU) ∧
      (Fixtures.videoU.id = 1 →
        v'.id = Fixtures.videoU.id ∧
        v'.video_uid = Fixtures.videoU.video_uid ∧
        v'.storage_path = Fixtures.videoU.storage_path ∧
        v'.status = "READY" ∧ v'.updated_at = 7 ∧
        v'.hls_path = (if truthy none then none else Fixtures.videoU.hls_path) ∧
        v'.structured_transcript_path =
          (if truthy (some "gs://t/a.json") then some "gs://t/a.json"
           else Fixtures.videoU.structured_transcript_path) ∧
        (none = (none : Option String) → v'.hls_path = Fixtures.videoU.hls_path) ∧
        (some "gs://t/a.json" = (none : Option String) →
          v'.structured_transcript_path =
            Fixtures.videoU.structured_transcript_path)) :=
  update_video_status_frame 1 "READY" none (some "gs://t/a.json") 7
    [Fixtures.videoU] 0 Fixtures.videoU rfl

/-- C9 counterexample: a typed failure for video `u` whose
`ingest_jobs` row is in state `queued` (exactly the state the
timeout-reset path of the idempotency check leaves behind).  The error
handler's UPDATE carries `AND status = 'processing'`, so the job is
left in `queued` with no error message, not marked `error` as the claim
requires. -/
theorem handle_error_leaves_queued_row :
    ((Ingest.handle_error 50 "u" "ASRError" "asr failed"
        Fixtures.stQueued).1.jobs.map (fun j => j.status)) = ["queued"] ∧
    ((Ingest.handle_error 50 "u" "ASRError" "asr failed"
        Fixtures.stQueued).1.jobs.map (fun j => j.err)) = [none] ∧
    ((Ingest.handle_error 50 "u" "ASRError" "asr failed"
        Fixtures.stQueued).1.videos.map (fun v => v.status)) = ["ERROR"] :=
  ⟨rfl, rfl, rfl⟩

/-- C9 (amended): on a typed workflow failure the handler sets
`status='error'`, the error message and `finished_at` on this video's
`ingest_jobs` rows that are currently in status `processing` — rows in
any other status are left unchanged — sets the video's status to
`ERROR`, and emits exactly one fatal notification. -/
theorem handle_error_spec (now : Int) (uid et em : String)
    (st : Ingest.DBState) :
    (∀ (k : Nat) (r : Ingest.JobRow), st.jobs[k]? = some r →
      (r.video_uid = uid → r.status = "processing" →
        (Ingest.handle_error now uid et em st).1.jobs[k]? =
          some { r with
                 status := "error"
                 err := some em
                 finished_at := some now }) ∧
      (r.video_uid ≠ uid ∨ r.status ≠ "processing" →
        (Ingest.handle_error now uid et em st).1.jobs[k]? = some r)) ∧
    (∀ (k : Nat) (v : Ingest.VideoRow), st.videos[k]? = some v →
      (v.video_uid = uid →
        (Ingest.handle_error now uid et em st).1.videos[k]? =
          some { v with status := "ERROR" }) ∧
      (v.video_uid ≠ uid →
        (Ingest.handle_error now uid et em st).1.videos[k]? = some v)) ∧
    (Ingest.handle_error now uid et em st).2 =
      [{ error_type := et, error_message := em, video_uid := uid }] := by
  refine ⟨?_, ?_, rfl⟩
  · intro k r hr
    constructor
    · intro h1 h2
      simp [Ingest.handle_error, List.getElem?_map, hr, h1, h2]
    · intro h
      rcases h with h | h <;>
        simp [Ingest.handle_error, List.getElem?_map, hr, h]
  · intro k v hv
    constructor
    · intro h1
      simp [Ingest.handle_error, List.getElem?_map, hv, h1]
    · intro h
      simp [Ingest.handle_error, List.getElem?_map, hv, h]

/-- Witness for the C9 check: a `processing` row for `u` is marked
`error` with message and `finished_at`, and the fatal card is sent. -/
theorem handle_error_spec_witness :
    (Ingest.handle_error 50 "u" "ASRError" "asr failed"
        Fixtures.stProc).1.jobs[0]? =
      some { Fixtures.jobProc with
             status := "error"
             err := some "asr failed"
             finished_at := some 50 } ∧
    (Ingest.handle_error 50 "u" "ASRError" "asr failed"
        Fixtures.stProc).2 =
      [{ error_type := "ASRError", error_message := "asr failed",
         video_uid := "u" }] := by
  have h := handle_error_spec 50 "u" "ASRError" "asr failed" Fixtures.stProc
  exact ⟨(h.1 0 Fixtures.jobProc rfl).1 rfl rfl, h.2.2⟩

/-- Helper: creating-or-reusing the video row never touches the
`ingest_jobs` table. -/
theorem get_or_create_video_jobs (raw uid obj : String)
    (st : Ingest.DBState) :
    (Ingest.get_or_create_video raw uid obj st).2.jobs = st.jobs := by
  unfold Ingest.get_or_create_video
  cases st.videos.find? (fun v => v.video_uid == uid) <;> rfl

/-- C1 counterexample: an ingress event whose `ingest_jobs` row exists
in state `error`.  The claim says a new row with status `processing`
and `started_at = now` is inserted; the code instead returns the
existing row untouched and proceeds — the state after the check is
byte-for-byte the state before it, whose only job row still has status
`error`. -/
theorem check_idempotency_no_insert_on_error_row :
    Ingest.check_idempotency 9999 "raw" Fixtures.msgK Fixtures.stErr =
      .ok (Ingest.recOfRow Fixtures.jobErr, Fixtures.stErr) ∧
    Fixtures.stErr.jobs.map (fun j => j.status) = ["error"] :=
  ⟨rfl, rfl⟩

/-- C1 (amended): keyed by `(object_key, etag)`: an existing `done` row
stops with already-complete; an existing `processing` row with
`now - started_at` under the 3600 s timeout stops with in-flight; a
timed-out `processing` row is reset to `queued` with `started_at`
cleared and `retry_count + 1`, and processing proceeds with the stale
record; an existing `error` or `queued` row is left unchanged and
processing proceeds with it (no new row is inserted); only when no row
exists is a fresh row with status `processing` and `started_at = now`
appended (after ensuring the video row), and processing proceeds. -/
theorem check_idempotency_spec (now : Int) (raw : String)
    (m : Ingest.PubSubMsg) (st : Ingest.DBState) :
    (∀ row, st.jobs.find? (Ingest.jobMatch m) = some row →
      (row.status = "done" →
        Ingest.check_idempotency now raw m st =
          .error "Task already completed") ∧
      (row.status = "processing" →
        (∀ t, row.started_at = some t →
          (now - t < Ingest.PROCESSING_TIMEOUT_SECONDS →
            Ingest.check_idempotency now raw m st =
              .error "Task already processing") ∧
          (Ingest.PROCESSING_TIMEOUT_SECONDS ≤ now - t →
            ∃ st', Ingest.check_idempotency now raw m st =
                .ok (Ingest.recOfRow row, st') ∧
              st'.videos = st.videos ∧
              (∀ (k : Nat) (r : Ingest.JobRow), st.jobs[k]? = some r →
                (Ingest.jobMatch m r = true →
                  st'.jobs[k]? = some { r with
                    status := "queued"
                    started_at := none
                    retry_count := r.retry_count + 1 }) ∧
                (Ingest.jobMatch m r = false →
                  st'.jobs[k]? = some r)))) ∧
        (row.started_at = none →
          Ingest.check_idempotency now raw m st =
            .ok (Ingest.recOfRow row, st))) ∧
      (row.status ≠ "done" → row.status ≠ "processing" →
        Ingest.check_idempotency now raw m st =
          .ok (Ingest.recOfRow row, st))) ∧
    (st.jobs.find? (Ingest.jobMatch m) = none →
      ∃ vid st',
        Ingest.check_idempotency now raw m st =
          .ok ({ object_key := m.object_name, etag := m.etag,
                 video_uid := m.video_uid, video_id := vid,
                 status := "processing", retry_count := 0 }, st') ∧
        st'.jobs = st.jobs ++
          [{ object_key := m.object_name, etag := m.etag,
             video_uid := m.video_uid, video_id := vid,
             status := "processing", started_at := some now,
             finished_at := none, retry_count := 0, err := none }]) := by
  constructor
  · intro row hf
    refine ⟨?_, ?_, ?_⟩
    · intro hd
      simp [Ingest.check_idempotency, hf, hd]
    · intro hp
      constructor
      · intro t ht
        constructor
        · intro hlt
          simp [Ingest.check_idempotency, hf, hp, ht, if_pos hlt]
        · intro hge
          refine ⟨⟨st.jobs.map (fun r =>
              if Ingest.jobMatch m r then
                { r with status := "queued", started_at := none, retry_count := r.retry_count + 1 }
              else r), st.videos, st.next_video_id⟩, ?_, rfl, ?_⟩
          · simp [Ingest.check_idempotency, hf, hp, ht,
              if_neg (not_lt.mpr hge)]
          · intro k r hr
            constructor <;> intro hm <;>
              simp [List.getElem?_map, hr, hm]
      · intro hnone
        simp [Ingest.check_idempotency, hf, hp, hnone]
    · intro hnd hnp
      simp [Ingest.check_idempotency, hf, hnd, hnp]
  · intro hf
    refine ⟨(Ingest.get_or_create_video raw m.video_uid m.object_name st).1,
      { (Ingest.get_or_create_video raw m.video_uid m.object_name st).2 with
        jobs := (Ingest.get_or_create_video raw m.video_uid m.object_name st).2.jobs ++
          [{ object_key := m.object_name, etag := m.etag,
             video_uid := m.video_uid,
             video_id := (Ingest.get_or_create_video raw m.video_uid m.object_name st).1,
             status := "processing", started_at := some now,
             finished_at := none, retry_count := 0, err := none }] },
      ?_, ?_⟩
    · simp [Ingest.check_idempotency, hf]
    · simp [get_or_create_video_jobs]

/-- Witness for the C1 check: the `error`-row branch at the concrete
state of the counterexample — processing proceeds with the row
unchanged. -/
theorem check_idempotency_spec_witness :
    Ingest.check_idempotency 9999 "raw" Fixtures.msgK Fixtures.stErr =
      .ok (Ingest.recOfRow Fixtures.jobErr, Fixtures.stErr) := by
  have h := check_idempotency_spec 9999 "raw" Fixtures.msgK Fixtures.stErr
  exact ((h.1 Fixtures.jobErr rfl).2.2 (by decide) (by decide))

/-- C7: `create_fine_unit` computes
`external_key = model ++ ":" ++ lemma ++ ":def_" ++ md5(definition)[:8]`;
when a row with this key exists it returns that row's id, status and
fields without writing anything; otherwise it inserts one new row with
status `pending`; and it is idempotent on the key: calling it again
with the same (lemma, definition) under the same model returns the same
`fine_id` and leaves the catalog unchanged. -/
theorem create_fine_unit_spec (md5hex : String → String)
    (gm lem kind pos defn lang : String) (db : MCP.CatalogDB) :
    (∀ r, db.rows.find? (fun r => r.external_key ==
          some (gm ++ ":" ++ lem ++ ":def_" ++ (md5hex defn).take 8)) =
        some r →
      create_fine_unit md5hex gm lem kind pos defn lang db =
        ({ fine_id := r.id, lemma_ := r.label, pos := r.pos,
           defn := r.defn, status := r.status,
           note := "Already exists in database" }, db)) ∧
    (db.rows.find? (fun r => r.external_key ==
          some (gm ++ ":" ++ lem ++ ":def_" ++ (md5hex defn).take 8)) =
        none →
      (create_fine_unit md5hex gm lem kind pos defn lang db).1.status =
        "pending" ∧
      (create_fine_unit md5hex gm lem kind pos defn lang db).1.fine_id =
        db.next_id ∧
      (create_fine_unit md5hex gm lem kind pos defn lang db).2.rows =
        db.rows ++
          [{ id := db.next_id, kind := kind, label := lem, lang := lang,
             pos := posToDb pos, defn := defn, status := "pending",
             external_key := some (gm ++ ":" ++ lem ++ ":def_" ++
               (md5hex defn).take 8) }]) ∧
    ((create_fine_unit md5hex gm lem kind pos defn lang
        (create_fine_unit md5hex gm lem kind pos defn lang db).2).1.fine_id =
      (create_fine_unit md5hex gm lem kind pos defn lang db).1.fine_id ∧
     (create_fine_unit md5hex gm lem kind pos defn lang
        (create_fine_unit md5hex gm lem kind pos defn lang db).2).2 =
      (create_fine_unit md5hex gm lem kind pos defn lang db).2) := by
  refine ⟨?_, ?_, ?_⟩
  · intro r hr
    simp [create_fine_unit, hr]
  · intro hn
    simp [create_fine_unit, hn]
  · rcases hf : db.rows.find? (fun r => r.external_key ==
        some (gm ++ ":" ++ lem ++ ":def_" ++ (md5hex defn).take 8)) with
      _ | r
    · have hcreate : create_fine_unit md5hex gm lem kind pos defn lang db =
          ({ fine_id := db.next_id, lemma_ := lem,
             pos := some (match posToDb pos with
                          | some p => if p == "" then "N/A" else p
                          | none => "N/A"),
             defn := defn, status := "pending",
             note := "Created by Gemini, pending manual review" },
           { rows := db.rows ++
               [{ id := db.next_id, kind := kind, label := lem,
                  lang := lang, pos := posToDb pos, defn := defn,
                  status := "pending",
                  external_key := some (gm ++ ":" ++ lem ++ ":def_" ++
                    (md5hex defn).take 8) }],
             next_id := db.next_id + 1 }) := by
        simp [create_fine_unit, hf]
      have hfind2 : (db.rows ++
            [({ id := db.next_id, kind := kind, label := lem,
                lang := lang, pos := posToDb pos, defn := defn,
                status := "pending",
                external_key := some (gm ++ ":" ++ lem ++ ":def_" ++
                  (md5hex defn).take 8) } : FineUnitRow)]).find?
            (fun r => r.external_key ==
              some (gm ++ ":" ++ lem ++ ":def_" ++ (md5hex defn).take 8)) =
          some ({ id := db.next_id, kind := kind, label := lem,
                  lang := lang, pos := posToDb pos, defn := defn,
                  status := "pending",
                  external_key := some (gm ++ ":" ++ lem ++ ":def_" ++
                    (md5hex defn).take 8) } : FineUnitRow) := by
        rw [List.find?_append, hf]
        simp [List.find?_cons]
      have hcreate2 : create_fine_unit md5hex gm lem kind pos defn lang
            (create_fine_unit md5hex gm lem kind pos defn lang db).2 =
          ({ fine_id := db.next_id, lemma_ := lem,
             pos := posToDb pos,
             defn := defn, status := "pending",
             note := "Already exists in database" },
           (create_fine_unit md5hex gm lem kind pos defn lang db).2) := by
        rw [hcreate]
        simp [create_fine_unit, hfind2]
      rw [hcreate2, hcreate]
      exact ⟨rfl, rfl⟩
    · have heq : create_fine_unit md5hex gm lem kind pos defn lang db =
          ({ fine_id := r.id, lemma_ := r.label, pos := r.pos,
             defn := r.defn, status := r.status,
             note := "Already exists in database" }, db) := by
        simp [create_fine_unit, hf]
      have heq2 : create_fine_unit md5hex gm lem kind pos defn lang
            (create_fine_unit md5hex gm lem kind pos defn lang db).2 =
          ({ fine_id := r.id, lemma_ := r.label, pos := r.pos,
             defn := r.defn, status := r.status,
             note := "Already exists in database" }, db) := by
        rw [heq]
        simp [create_fine_unit, hf]
      rw [heq2, heq]
      exact ⟨rfl, rfl⟩

/-- Witness for the C7 check: a fresh catalog — the insert happens with
status `pending` and key `gem:give up:def_01234567`, and the repeated
call returns the same `fine_id` without growing the catalog. -/
theorem create_fine_unit_spec_witness :
    ((create_fine_unit Fixtures.md5h "gem" "give up" "phrase_sense" "N/A"
        "stop trying" "en" Fixtures.emptyCatalog).1.status = "pending" ∧
     (create_fine_unit Fixtures.md5h "gem" "give up" "phrase_sense" "N/A"
        "stop trying" "en" Fixtures.emptyCatalog).1.fine_id = 100 ∧
     (create_fine_unit Fixtures.md5h "gem" "give up" "phrase_sense" "N/A"
        "stop trying" "en" Fixtures.emptyCatalog).2.rows =
       [{ id := 100, kind := "phrase_sense", label := "give up",
          lang := "en", pos := posToDb "N/A", defn := "stop trying",
          status := "pending",
          external_key := some ("gem" ++ ":" ++ "give up" ++ ":def_" ++
            (Fixtures.md5h "stop trying").take 8) }]) ∧
    (create_fine_unit Fixtures.md5h "gem" "give up" "phrase_sense" "N/A"
        "stop trying" "en"
        (create_fine_unit Fixtures.md5h "gem" "give up" "phrase_sense"
          "N/A" "stop trying" "en" Fixtures.emptyCatalog).2).1.fine_id =
      (create_fine_unit Fixtures.md5h "gem" "give up" "phrase_sense" "N/A"
        "stop trying" "en" Fixtures.emptyCatalog).1.fine_id := by
  have h := create_fine_unit_spec Fixtures.md5h "gem" "give up"
    "phrase_sense" "N/A" "stop trying" "en" Fixtures.emptyCatalog
  have hn := h.2.1 (by rfl)
  exact ⟨⟨hn.1, by rw [hn.2.1]; rfl, hn.2.2⟩, h.2.2.1⟩

/-- Helper: one iteration of the `_insert_occurrences` loop, expressed
through the per-pair classification. -/
theorem insertOccGo_cons (sids : List Int) (m o : String)
    (st : Persist.OccState) (ann : PDict) (outcome : Persist.InsOutcome)
    (rest : List (PDict × Persist.InsOutcome)) :
    Persist.insertOccGo sids m o st ((ann, outcome) :: rest) =
      match Persist.classify sids m o (ann, outcome) with
      | .cleanSkip =>
        Persist.insertOccGo sids m o
          { st with skipped := st.skipped + 1 } rest
      | .insertedRow row =>
        Persist.insertOccGo sids m o
          { st with
            inserted := st.inserted + 1
            rows := st.rows ++ [row] } rest
      | .conflict => Persist.insertOccGo sids m o st rest
      | .genericFail msg =>
        Persist.insertOccGo sids m o
          { st with
            skipped := st.skipped + 1
            firstErr := st.firstErr <|> some msg } rest
      | .fkFail msg =>
        Persist.insertOccGo sids m o
          { st with
            skipped := st.skipped + 1
            firstErr := st.firstErr <|> some msg } rest
      | .dbFail msg =>
        match st.firstErr with
        | none => .error msg
        | some _ =>
          Persist.insertOccGo sids m o
            { st with skipped := st.skipped + 1 } rest := by
  rcases h1 : dget ann "segment_index" with _ | v
  · simp [Persist.insertOccGo, Persist.classify, h1]
  · cases v with
    | pint si =>
      by_cases hle : (sids.length : Int) ≤ si
      · simp [Persist.insertOccGo, Persist.classify, h1, hle]
      · rcases h2 : Persist.pyIndex sids si with _ | sid
        · simp [Persist.insertOccGo, Persist.classify, h1, hle, h2]
        · rcases h3 : dget ann "fine_id" with _ | fid
          · simp [Persist.insertOccGo, Persist.classify, h1, hle, h2, h3]
          · cases outcome with
            | acceptedNew =>
              simp [Persist.insertOccGo, Persist.classify, h1, hle, h2, h3]
            | conflictIgnored =>
              simp [Persist.insertOccGo, Persist.classify, h1, hle, h2, h3]
            | fkViolation msg =>
              simp [Persist.insertOccGo, Persist.classify, h1, hle, h2, h3]
            | dbError msg =>
              cases hfe : st.firstErr <;>
                simp [Persist.insertOccGo, Persist.classify, h1, hle, h2,
                  h3, hfe]
    | pnum q =>
      by_cases hle : (sids.length : Rat) ≤ q
      · simp [Persist.insertOccGo, Persist.classify, h1, hle]
      · simp [Persist.insertOccGo, Persist.classify, h1, hle]
    | pnan => simp [Persist.insertOccGo, Persist.classify, h1]
    | pinf => simp [Persist.insertOccGo, Persist.classify, h1]
    | pninf => simp [Persist.insertOccGo, Persist.classify, h1]
    | pstr s => simp [Persist.insertOccGo, Persist.classify, h1]
    | pdict d => simp [Persist.insertOccGo, Persist.classify, h1]
    | plist xs => simp [Persist.insertOccGo, Persist.classify, h1]
    | pnone => simp [Persist.insertOccGo, Persist.classify, h1]

/-- Helper: once a first error has been recorded, the loop never raises
again; every remaining pair is classified independently and the
counters and rows simply accumulate. -/
theorem insertOccGo_after_error (sids : List Int) (m o : String) :
    ∀ (rest : List (PDict × Persist.InsOutcome)) (st : Persist.OccState)
      (e : String), st.firstErr = some e →
    Persist.insertOccGo sids m o st rest =
      .ok (st.inserted + Persist.countIns sids m o rest,
           st.skipped + Persist.countSkip sids m o rest,
           st.rows ++ Persist.rowsOf sids m o rest) := by
  intro rest
  induction rest with
  | nil =>
    intro st e he
    simp [Persist.insertOccGo, Persist.countIns, Persist.countSkip,
      Persist.rowsOf]
  | cons a rest ih =>
    intro st e he
    obtain ⟨ann, outcome⟩ := a
    rw [insertOccGo_cons]
    rcases hc : Persist.classify sids m o (ann, outcome) with
      _ | row | _ | msg | msg | msg
    · show Persist.insertOccGo sids m o
        { st with skipped := st.skipped + 1 } rest = _
      rw [ih { st with skipped := st.skipped + 1 } e he]
      simp [Persist.countIns, Persist.countSkip, Persist.rowsOf,
        List.countP_cons, List.filterMap_cons, hc, Persist.isInsClass,
        Persist.isSkipClass, Persist.rowOfClass]
      omega
    · show Persist.insertOccGo sids m o
        { st with inserted := st.inserted + 1, rows := st.rows ++ [row] } rest = _
      rw [ih { st with inserted := st.inserted + 1, rows := st.rows ++ [row] } e he]
      simp [Persist.countIns, Persist.countSkip, Persist.rowsOf,
        List.countP_cons, List.filterMap_cons, hc, Persist.isInsClass,
        Persist.isSkipClass, Persist.rowOfClass]
      omega
    · show Persist.insertOccGo sids m o st rest = _
      rw [ih st e he]
      simp [Persist.countIns, Persist.countSkip, Persist.rowsOf,
        List.countP_cons, List.filterMap_cons, hc, Persist.isInsClass,
        Persist.isSkipClass, Persist.rowOfClass]
    · show Persist.insertOccGo sids m o
        { st with skipped := st.skipped + 1, firstErr := st.firstErr <|> some msg } rest = _
      rw [ih { st with skipped := st.skipped + 1, firstErr := st.firstErr <|> some msg } e (by simp [he])]
      simp [Persist.countIns, Persist.countSkip, Persist.rowsOf,
        List.countP_cons, List.filterMap_cons, hc, Persist.isInsClass,
        Persist.isSkipClass, Persist.rowOfClass]
      omega
    · show Persist.insertOccGo sids m o
        { st with skipped := st.skipped + 1, firstErr := st.firstErr <|> some msg } rest = _
      rw [ih { st with skipped := st.skipped + 1, firstErr := st.firstErr <|> some msg } e (by simp [he])]
      simp [Persist.countIns, Persist.countSkip, Persist.rowsOf,
        List.countP_cons, List.filterMap_cons, hc, Persist.isInsClass,
        Persist.isSkipClass, Persist.rowOfClass]
      omega
    · rw [show st.firstErr = some e from he]
      show Persist.insertOccGo sids m o
        { st with skipped := st.skipped + 1, firstErr := some e } rest = _
      rw [ih { st with skipped := st.skipped + 1, firstErr := some e } e rfl]
      simp [Persist.countIns, Persist.countSkip, Persist.rowsOf,
        List.countP_cons, List.filterMap_cons, hc, Persist.isInsClass,
        Persist.isSkipClass, Persist.rowOfClass]
      omega

/-- Helper: with no error recorded yet, the loop raises exactly when
the first failing pair is a non-foreign-key database error, and
otherwise returns the accumulated declarative counts and rows. -/
theorem insertOccGo_no_error (sids : List Int) (m o : String) :
    ∀ (rest : List (PDict × Persist.InsOutcome)) (st : Persist.OccState),
      st.firstErr = none →
    Persist.insertOccGo sids m o st rest =
      match Persist.firstRaise sids m o rest with
      | some msg => .error msg
      | none =>
        .ok (st.inserted + Persist.countIns sids m o rest,
             st.skipped + Persist.countSkip sids m o rest,
             st.rows ++ Persist.rowsOf sids m o rest) := by
  intro rest
  induction rest with
  | nil =>
    intro st he
    simp [Persist.insertOccGo, Persist.firstRaise, Persist.countIns,
      Persist.countSkip, Persist.rowsOf]
  | cons a rest ih =>
    intro st he
    obtain ⟨ann, outcome⟩ := a
    rw [insertOccGo_cons]
    rcases hc : Persist.classify sids m o (ann, outcome) with
      _ | row | _ | msg | msg | msg
    · have hfr : Persist.firstRaise sids m o ((ann, outcome) :: rest) =
          Persist.firstRaise sids m o rest := by
        simp [Persist.firstRaise, List.find?_cons, hc, Persist.isFailClass]
      show Persist.insertOccGo sids m o
        { st with skipped := st.skipped + 1 } rest = _
      rw [ih { st with skipped := st.skipped + 1 } he, hfr]
      cases hr : Persist.firstRaise sids m o rest
      · simp [Persist.countIns, Persist.countSkip, Persist.rowsOf,
          List.countP_cons, List.filterMap_cons, hc, Persist.isInsClass,
          Persist.isSkipClass, Persist.rowOfClass]
        omega
      · rfl
    · have hfr : Persist.firstRaise sids m o ((ann, outcome) :: rest) =
          Persist.firstRaise sids m o rest := by
        simp [Persist.firstRaise, List.find?_cons, hc, Persist.isFailClass]
      show Persist.insertOccGo sids m o
        { st with inserted := st.inserted + 1, rows := st.rows ++ [row] } rest = _
      rw [ih { st with inserted := st.inserted + 1, rows := st.rows ++ [row] } he, hfr]
      cases hr : Persist.firstRaise sids m o rest
      · simp [Persist.countIns, Persist.countSkip, Persist.rowsOf,
          List.countP_cons, List.filterMap_cons, hc, Persist.isInsClass,
          Persist.isSkipClass, Persist.rowOfClass]
        omega
      · rfl
    · have hfr : Persist.firstRaise sids m o ((ann, outcome) :: rest) =
          Persist.firstRaise sids m o rest := by
        simp [Persist.firstRaise, List.find?_cons, hc, Persist.isFailClass]
      show Persist.insertOccGo sids m o st rest = _
      rw [ih st he, hfr]
      cases hr : Persist.firstRaise sids m o rest
      · simp [Persist.countIns, Persist.countSkip, Persist.rowsOf,
          List.countP_cons, List.filterMap_cons, hc, Persist.isInsClass,
          Persist.isSkipClass, Persist.rowOfClass]
      · rfl
    · have hfr : Persist.firstRaise sids m o ((ann, outcome) :: rest) =
          none := by
        simp [Persist.firstRaise, List.find?_cons, hc, Persist.isFailClass]
      show Persist.insertOccGo sids m o
        { st with skipped := st.skipped + 1, firstErr := st.firstErr <|> some msg } rest = _
      rw [insertOccGo_after_error sids m o rest
        { st with skipped := st.skipped + 1, firstErr := st.firstErr <|> some msg }
        msg (by simp [he]), hfr]
      simp [Persist.countIns, Persist.countSkip, Persist.rowsOf,
        List.countP_cons, List.filterMap_cons, hc, Persist.isInsClass,
        Persist.isSkipClass, Persist.rowOfClass]
      omega
    · have hfr : Persist.firstRaise sids m o ((ann, outcome) :: rest) =
          none := by
        simp [Persist.firstRaise, List.find?_cons, hc, Persist.isFailClass]
      show Persist.insertOccGo sids m o
        { st with skipped := st.skipped + 1, firstErr := st.firstErr <|> some msg } rest = _
      rw [insertOccGo_after_error sids m o rest
        { st with skipped := st.skipped + 1, firstErr := st.firstErr <|> some msg }
        msg (by simp [he]), hfr]
      simp [Persist.countIns, Persist.countSkip, Persist.rowsOf,
        List.countP_cons, List.filterMap_cons, hc, Persist.isInsClass,
        Persist.isSkipClass, Persist.rowOfClass]
      omega
    · have hfr : Persist.firstRaise sids m o ((ann, outcome) :: rest) =
          some msg := by
        simp [Persist.firstRaise, List.find?_cons, hc, Persist.isFailClass]
      rw [show st.firstErr = none from he, hfr]

/-- C2 counterexample: an annotation with `segment_index = -1` against
a two-segment batch.  The claim calls every out-of-range index a
skip-with-warning, but the source only tests
`segment_index >= len(segment_ids)`, so the negative index silently
resolves through Python indexing to the last segment: the batch reports
one insert, zero skips, and the occurrence is bound to segment id 20. -/
theorem insert_occurrences_negative_index :
    (Persist.insert_occurrences [10, 20]
        [(Fixtures.annNeg, .acceptedNew)] "gemini_video" "m").toOption.map
      (fun t => (t.1, t.2.1, t.2.2.map (fun r => r.segment_id))) =
      some (1, 0, [20]) := rfl

/-- C2 (amended): inside the transaction, for each annotation in order:
a missing (or `None`) `segment_index`, or one at least the number of
segments, is skipped and counted; a negative index is not caught — an
in-range negative one addresses a segment from the end of the id vector
and proceeds to the insert, an out-of-range negative one raises
`IndexError` and is tallied as a skip; the `ON CONFLICT ... DO NOTHING`
insert counts only rows actually inserted; a foreign-key violation on
`fine_id` is tolerated, skipped and counted; any other database error
at the first failing annotation is raised, aborting the transaction,
while errors on annotations after the first failure are merely tallied
as skipped and never raised.  Formally: the loop raises exactly the
message of `firstRaise` (the first failing annotation when its failure
is a non-foreign-key database error), and otherwise returns the
position-independent counts and rows of the classification. -/
theorem insert_occurrences_spec (sids : List Int)
    (anns : List (PDict × Persist.InsOutcome)) (m o : String) :
    Persist.insert_occurrences sids anns m o =
      match Persist.firstRaise sids m o anns with
      | some msg => .error msg
      | none =>
        .ok (Persist.countIns sids m o anns,
             Persist.countSkip sids m o anns,
             Persist.rowsOf sids m o anns) := by
  have h := insertOccGo_no_error sids m o anns
    { inserted := 0, skipped := 0, firstErr := none, rows := [] } rfl
  simpa [Persist.insert_occurrences] using h

/-- Helper: a classified insert always carries the batch's
`detection_method`. -/
theorem classify_detection_method (sids : List Int) (m o : String)
    (a : PDict × Persist.InsOutcome) (row : Persist.OccRow)
    (h : Persist.classify sids m o a = .insertedRow row) :
    row.detection_method = m := by
  unfold Persist.classify at h
  repeat' split at h
  all_goals first
    | exact Persist.AnnClass.noConfusion h
    | (injection h with h2; subst h2; rfl)

/-- Helper: every row the batch writes carries the batch's
`detection_method`. -/
theorem rowsOf_detection_method (sids : List Int) (m o : String)
    (anns : List (PDict × Persist.InsOutcome)) (r : Persist.OccRow)
    (hr : r ∈ Persist.rowsOf sids m o anns) : r.detection_method = m := by
  simp only [Persist.rowsOf, List.mem_filterMap] at hr
  obtain ⟨a, _, hcl⟩ := hr
  rcases hc : Persist.classify sids m o a with _ | row | _ | msg | msg | msg <;>
    rw [hc] at hcl <;> simp [Persist.rowOfClass] at hcl
  exact hcl ▸ classify_detection_method sids m o a row hc

/-- C3 counterexample: with a video URI and a successful multimodal
cache creation the method tag the orchestrator records is the string
`gemini_video`, which is not an element of
`{model_video, model_text, model_nocache}` as the claim states. -/
theorem cache_method_tag_is_gemini :
    Orchestrator.create_cached_content_with_fallback
        (some "gs://b/v.mp4") true true =
      (some .multimodal, "gemini_video") ∧
    ("gemini_video" ≠ "model_video" ∧ "gemini_video" ≠ "model_text" ∧
     "gemini_video" ≠ "model_nocache") :=
  ⟨rfl, by decide⟩

/-- C3 (amended): cache creation is attempted multimodal first (when a
video URI is present), then text-only, then no-cache; the first level
that succeeds determines the method tag, an element of
`{gemini_video, gemini_text, gemini_nocache}` (multimodal →
`gemini_video`, text-only → `gemini_text`, none → `gemini_nocache`);
and this tag is the `detection_method` recorded on every occurrence row
the persistence layer writes for the video. -/
theorem cache_fallback_method_spec (video_uri : Option String)
    (mok tok : Bool) (sids : List Int)
    (anns : List (PDict × Persist.InsOutcome)) (ont : String) :
    ((Orchestrator.create_cached_content_with_fallback video_uri mok tok).2 =
        "gemini_video" ∨
     (Orchestrator.create_cached_content_with_fallback video_uri mok tok).2 =
        "gemini_text" ∨
     (Orchestrator.create_cached_content_with_fallback video_uri mok tok).2 =
        "gemini_nocache") ∧
    (truthy video_uri = true → mok = true →
      Orchestrator.create_cached_content_with_fallback video_uri mok tok =
        (some .multimodal, "gemini_video")) ∧
    ((truthy video_uri && mok) = false → tok = true →
      Orchestrator.create_cached_content_with_fallback video_uri mok tok =
        (some .textOnly, "gemini_text")) ∧
    ((truthy video_uri && mok) = false → tok = false →
      Orchestrator.create_cached_content_with_fallback video_uri mok tok =
        (none, "gemini_nocache")) ∧
    (∀ ins skip rows,
      Persist.insert_occurrences sids anns
          (Orchestrator.create_cached_content_with_fallback video_uri mok tok).2
          ont = .ok (ins, skip, rows) →
      ∀ r ∈ rows, r.detection_method =
        (Orchestrator.create_cached_content_with_fallback video_uri mok tok).2) := by
  refine ⟨?_, ?_, ?_, ?_, ?_⟩
  · cases h1 : (truthy video_uri && mok) <;> cases tok <;>
      simp only [Orchestrator.create_cached_content_with_fallback, h1] <;>
      simp
  · intro h1 h2
    simp [Orchestrator.create_cached_content_with_fallback, h1, h2]
  · intro h1 h2
    simp only [Orchestrator.create_cached_content_with_fallback, h1, h2]
    simp
  · intro h1 h2
    simp only [Orchestrator.create_cached_content_with_fallback, h1, h2]
    simp
  · intro ins skip rows hok r hrm
    have h := insertOccGo_no_error sids
      (Orchestrator.create_cached_content_with_fallback video_uri mok tok).2
      ont anns { inserted := 0, skipped := 0, firstErr := none, rows := [] }
      rfl
    rw [show Persist.insert_occurrences sids anns
          (Orchestrator.create_cached_content_with_fallback video_uri mok tok).2
          ont = _ from h] at hok
    rcases hfr : Persist.firstRaise sids
        (Orchestrator.create_cached_content_with_fallback video_uri mok tok).2
        ont anns with _ | msg
    · rw [hfr] at hok
      simp only [Nat.zero_add, List.nil_append] at hok
      rw [Except.ok.injEq, Prod.mk.injEq, Prod.mk.injEq] at hok
      obtain ⟨-, -, hrows⟩ := hok
      subst hrows
      exact rowsOf_detection_method _ _ _ _ _ hrm
    · rw [hfr] at hok
      cases hok

/-- Witness for the C3 check: a failed multimodal attempt with a
successful text-only cache yields the tag `gemini_text`, and a concrete
one-annotation batch persisted under that tag carries it as
`detection_method` on its single written row. -/
theorem cache_fallback_method_spec_witness :
    Orchestrator.create_cached_content_with_fallback
        (some "gs://b/v.mp4") false true = (some .textOnly, "gemini_text") ∧
    (Persist.rowsOf [10] "gemini_text" "m"
        [(Fixtures.annZero, Persist.InsOutcome.acceptedNew)]).all
      (fun r => r.detection_method == "gemini_text") = true := by
  have h := cache_fallback_method_spec (some "gs://b/v.mp4") false true
    [10] [(Fixtures.annZero, Persist.InsOutcome.acceptedNew)] "m"
  have h3 := h.2.2.1 (by decide) rfl
  refine ⟨h3, ?_⟩
  have hok : Persist.insert_occurrences [10]
      [(Fixtures.annZero, Persist.InsOutcome.acceptedNew)]
      (Orchestrator.create_cached_content_with_fallback
        (some "gs://b/v.mp4") false true).2 "m" =
      .ok (1, 0, Persist.rowsOf [10] "gemini_text" "m"
        [(Fixtures.annZero, Persist.InsOutcome.acceptedNew)]) := rfl
  have hall := h.2.2.2.2 1 0
    (Persist.rowsOf [10] "gemini_text" "m"
      [(Fixtures.annZero, Persist.InsOutcome.acceptedNew)]) hok
  rw [List.all_eq_true]
  intro r hr
  have := hall r hr
  rw [h3] at this
  simp [this]

/-- Helper: characterization of the integer check. -/
theorem isInt_iff (o : Option PVal) :
    Annotators.isInt o = true ↔ ∃ i, o = some (.pint i) := by
  rcases o with _ | v
  · simp [Annotators.isInt]
  · cases v <;> simp [Annotators.isInt]

/-- Helper: characterization of the comprehensibility check — a finite
number (Python int or float, not `nan` or an infinity) lying in the
unit interval. -/
theorem scoreOk_iff (o : Option PVal) :
    Annotators.scoreOk o = true ↔
      ∃ v, o = some v ∧
        ((∃ i : Int, v = .pint i ∧ 0 ≤ i ∧ i ≤ 1) ∨
         (∃ q : Rat, v = .pnum q ∧ 0 ≤ q ∧ q ≤ 1)) := by
  rcases o with _ | v
  · simp [Annotators.scoreOk]
  · cases v <;> simp [Annotators.scoreOk, and_assoc]

/-- Helper: characterization of the span check. -/
theorem spanOk_iff (o : Option PVal) (txt : String) :
    Annotators.spanOk o txt = true ↔
      ∃ sp s e, o = some (.pdict sp) ∧
        dget sp "start" = some (.pint s) ∧
        dget sp "end" = some (.pint e) ∧
        0 ≤ s ∧ s < e ∧ e ≤ (txt.length : Int) := by
  rcases o with _ | v
  · simp [Annotators.spanOk]
  · cases v <;> simp [Annotators.spanOk]
    case pdict sp =>
      rcases h1 : dget sp "start" with _ | w1 <;>
        rcases h2 : dget sp "end" with _ | w2 <;>
        (try cases w1) <;> (try cases w2) <;> simp [and_assoc]

/-- Helper: characterization of the rationale check. -/
theorem rationaleOk_iff (o : Option PVal) :
    Annotators.rationaleOk o = true ↔
      ∃ r, o = some (.pstr r) ∧ r ≠ "" := by
  rcases o with _ | v
  · simp [Annotators.rationaleOk]
  · cases v <;> simp [Annotators.rationaleOk]
    case pstr r =>
      exact not_congr ⟨fun h => String.ext (List.length_eq_zero.mp h),
        fun h => by simp [h]⟩

/-- C6 counterexample: the validator accepts an annotation whose
`segment_index` is 5 while the segment being processed is index 0 —
`validate_annotation` never receives the index and only checks that the
field is an integer, so the item is kept in the output. -/
theorem validate_accepts_wrong_segment_index :
    Orchestrator.process_segment "hello" 0 (.ok [Fixtures.annFive]) =
      [Fixtures.annFive] ∧
    dget Fixtures.annFive "segment_index" = some (.pint 5) ∧
    Annotators.validateAnn Fixtures.annFive "hello" = true :=
  ⟨rfl, rfl, rfl⟩

/-- C6 (amended): the validator accepts an annotation iff all required
fields are present, `segment_index` is an integer (any integer — it is
not compared with the index of the segment under processing),
`fine_id` is an integer, both comprehensibility scores are finite
numbers in the unit interval, the span is a dict of integers with
`0 ≤ start < end ≤ len(segment.text)`, and the rationale is a
non-empty string; and every annotation the validator rejects is
dropped from the per-segment output. -/
theorem validateAnn_spec (ann : PDict) (txt : String) (i : Nat)
    (lmAnns : List PDict) :
    (Annotators.validateAnn ann txt = true ↔
      ((∃ si : Int, dget ann "segment_index" = some (.pint si)) ∧
       (∃ fid : Int, dget ann "fine_id" = some (.pint fid)) ∧
       (∃ v, dget ann "visual_comprehensibility" = some v ∧
         ((∃ j : Int, v = .pint j ∧ 0 ≤ j ∧ j ≤ 1) ∨
          (∃ q : Rat, v = .pnum q ∧ 0 ≤ q ∧ q ≤ 1))) ∧
       (∃ v, dget ann "textual_comprehensibility" = some v ∧
         ((∃ j : Int, v = .pint j ∧ 0 ≤ j ∧ j ≤ 1) ∨
          (∃ q : Rat, v = .pnum q ∧ 0 ≤ q ∧ q ≤ 1))) ∧
       (∃ sp s e, dget ann "span" = some (.pdict sp) ∧
         dget sp "start" = some (.pint s) ∧
         dget sp "end" = some (.pint e) ∧
         0 ≤ s ∧ s < e ∧ e ≤ (txt.length : Int)) ∧
       (∃ r, dget ann "rationale" = some (.pstr r) ∧ r ≠ ""))) ∧
    (∀ a, a ∈ Orchestrator.process_segment txt i (.ok lmAnns) ↔
      a ∈ lmAnns ∧ Annotators.validateAnn a txt = true) := by
  constructor
  · simp only [Annotators.validateAnn, Bool.and_eq_true, and_assoc,
      isInt_iff, scoreOk_iff, spanOk_iff, rationaleOk_iff]
    constructor
    · rintro ⟨-, h1, h2, h3, h4, h5, h6⟩
      exact ⟨h1, h2, h3, h4, h5, h6⟩
    · rintro ⟨h1, h2, h3, h4, h5, h6⟩
      refine ⟨?_, h1, h2, h3, h4, h5, h6⟩
      obtain ⟨si, hsi⟩ := h1
      obtain ⟨fid, hfid⟩ := h2
      obtain ⟨v3, hv3, -⟩ := h3
      obtain ⟨v4, hv4, -⟩ := h4
      obtain ⟨sp, s, e, hsp, -⟩ := h5
      obtain ⟨r, hrr, -⟩ := h6
      simp [Annotators.REQUIRED_FIELDS, dhas, hsi, hfid, hv3, hv4,
        hsp, hrr]
  · intro a
    simp [Orchestrator.process_segment, List.mem_filter]

/-- Helper: the fan-out loop, started at base index `b`, is the flatten
of the per-index task outputs. -/
theorem processSegmentsGo_eq (tasks : List Orchestrator.SegTask) :
    ∀ b : Nat, Orchestrator.processSegmentsGo b tasks =
      ((List.range tasks.length).map (fun k =>
        match tasks[k]? with
        | some t => Orchestrator.process_one (b + k) t
        | none => [])).flatten := by
  induction tasks with
  | nil => intro b; simp [Orchestrator.processSegmentsGo]
  | cons t rest ih =>
    intro b
    show Orchestrator.process_one b t ++
        Orchestrator.processSegmentsGo (b + 1) rest = _
    rw [ih (b + 1)]
    simp only [List.length_cons, List.range_succ_eq_map,
      List.map_cons, List.flatten_cons, List.map_map]
    refine congrArg₂ _ (by simp) ?_
    refine congrArg _ (List.map_congr_left ?_)
    intro k hk
    simp [Function.comp, Nat.add_comm, Nat.add_left_comm, Nat.add_assoc]

/-- C5: the orchestrator's final annotation list is the concatenation
over segment indices, in index order, of each segment's valid phrase
annotations followed by its valid word annotations; in particular a
segment's contribution has exactly `N_p + N_w` items, phrase items
first. -/
theorem process_segments_concat (tasks : List Orchestrator.SegTask) :
    Orchestrator.process_segments_concurrent tasks =
      ((List.range tasks.length).map (fun i =>
        match tasks[i]? with
        | some t => Orchestrator.process_segment t.text i t.phraseOutcome ++
            Orchestrator.process_segment t.text i t.wordOutcome
        | none => [])).flatten ∧
    (∀ (i : Nat) (t : Orchestrator.SegTask), tasks[i]? = some t →
      (Orchestrator.process_one i t).length =
        (Orchestrator.process_segment t.text i t.phraseOutcome).length +
        (Orchestrator.process_segment t.text i t.wordOutcome).length ∧
      Orchestrator.process_one i t =
        Orchestrator.process_segment t.text i t.phraseOutcome ++
        Orchestrator.process_segment t.text i t.wordOutcome) := by
  constructor
  · rw [Orchestrator.process_segments_concurrent, processSegmentsGo_eq]
    refine congrArg _ (List.map_congr_left ?_)
    intro k hk
    cases tasks[k]? <;> simp [Orchestrator.process_one]
  · intro i t ht
    exact ⟨List.length_append _ _, rfl⟩

/-- Witness for the C5 check at a one-segment batch whose word
annotator call failed: the segment contributes its phrase items
followed by the (empty) word items. -/
theorem process_segments_concat_witness :
    (Orchestrator.process_one 0
        ⟨"h", .ok [Fixtures.annZero], .error "boom"⟩).length =
      (Orchestrator.process_segment "h" 0 (.ok [Fixtures.annZero])).length +
      (Orchestrator.process_segment "h" 0
        (.error "boom")).length := by
  have h := process_segments_concat
    [⟨"h", .ok [Fixtures.annZero], .error "boom"⟩]
  exact (h.2 0 ⟨"h", .ok [Fixtures.annZero], .error "boom"⟩ rfl).1

/-- Helper: full characterization of the bounded function-call loop,
for any remaining fuel and any position in the conversation. -/
theorem cwtLoop_spec (pt : String → Except String PVal)
    (handler : String → PDict → Except String PVal)
    (replies : Nat → Vertex.GReply) :
    ∀ (fuel sent : Nat),
      (Vertex.cwtLoop pt handler replies fuel sent (replies sent)).1.length ≤
        fuel ∧
      (∀ (k : Nat) (turn : Vertex.LoopTurn),
        (Vertex.cwtLoop pt handler replies fuel sent
          (replies sent)).1[k]? = some turn →
        turn.calls = Vertex.extract_function_calls (replies (sent + k)) ∧
        turn.calls ≠ [] ∧
        turn.responses = turn.calls.map (Vertex.exec_tool handler)) ∧
      ((Vertex.cwtLoop pt handler replies fuel sent
          (replies sent)).1.length < fuel →
        Vertex.extract_function_calls (replies (sent +
          (Vertex.cwtLoop pt handler replies fuel sent
            (replies sent)).1.length)) = [] ∧
        (Vertex.cwtLoop pt handler replies fuel sent (replies sent)).2 =
          Vertex.parse_response pt (replies (sent +
            (Vertex.cwtLoop pt handler replies fuel sent
              (replies sent)).1.length))) ∧
      ((Vertex.cwtLoop pt handler replies fuel sent
          (replies sent)).1.length = fuel →
        (Vertex.cwtLoop pt handler replies fuel sent (replies sent)).2 =
          Vertex.parse_response pt (replies (sent + fuel))) := by
  intro fuel
  induction fuel with
  | zero =>
    intro sent
    refine ⟨Nat.le_refl 0, ?_, ?_, ?_⟩
    · intro k turn h
      simp [Vertex.cwtLoop] at h
    · intro h
      simp [Vertex.cwtLoop] at h
    · intro h
      simp [Vertex.cwtLoop]
  | succ n ih =>
    intro sent
    cases hc : (Vertex.extract_function_calls (replies sent)).isEmpty with
    | true =>
      have hstep : Vertex.cwtLoop pt handler replies (n + 1) sent
          (replies sent) =
          ([], Vertex.parse_response pt (replies sent)) := by
        simp [Vertex.cwtLoop, hc]
      rw [hstep]
      refine ⟨by simp, ?_, ?_, ?_⟩
      · intro k turn h
        simp at h
      · intro h
        constructor
        · simpa using List.isEmpty_iff.mp hc
        · simp
      · intro h
        simp at h
    | false =>
      have hstep : Vertex.cwtLoop pt handler replies (n + 1) sent
          (replies sent) =
          ({ calls := Vertex.extract_function_calls (replies sent),
             responses := (Vertex.extract_function_calls
               (replies sent)).map (Vertex.exec_tool handler) } ::
            (Vertex.cwtLoop pt handler replies n (sent + 1)
              (replies (sent + 1))).1,
           (Vertex.cwtLoop pt handler replies n (sent + 1)
             (replies (sent + 1))).2) := by
        simp [Vertex.cwtLoop, hc]
      obtain ⟨ih1, ih2, ih3, ih4⟩ := ih (sent + 1)
      rw [hstep]
      refine ⟨by simpa using Nat.succ_le_succ ih1, ?_, ?_, ?_⟩
      · intro k turn h
        cases k with
        | zero =>
          rw [List.getElem?_cons_zero, Option.some.injEq] at h
          subst h
          refine ⟨by simp, ?_, rfl⟩
          simpa using List.isEmpty_eq_false.mp hc
        | succ k =>
          rw [List.getElem?_cons_succ] at h
          obtain ⟨hcalls, hne, hresp⟩ := ih2 k turn h
          have harith : sent + 1 + k = sent + (k + 1) := by omega
          rw [harith] at hcalls
          exact ⟨hcalls, hne, hresp⟩
      · intro h
        rw [List.length_cons] at h ⊢
        have h' : (Vertex.cwtLoop pt handler replies n (sent + 1)
            (replies (sent + 1))).1.length < n := by omega
        obtain ⟨he, hp⟩ := ih3 h'
        have harith : sent + 1 + (Vertex.cwtLoop pt handler replies n
            (sent + 1) (replies (sent + 1))).1.length =
            sent + ((Vertex.cwtLoop pt handler replies n (sent + 1)
              (replies (sent + 1))).1.length + 1) := by omega
        rw [harith] at he hp
        exact ⟨he, hp⟩
      · intro h
        rw [List.length_cons] at h
        have h' : (Vertex.cwtLoop pt handler replies n (sent + 1)
            (replies (sent + 1))).1.length = n := by omega
        have hp := ih4 h'
        have harith : sent + 1 + n = sent + (n + 1) := by omega
        rw [harith] at hp
        exact hp

/-- C4: per (segment, annotator) conversation the function-call loop
executes at most `MAX_ITERATIONS = 10` tool-call turns; in each such
turn every function call of the reply is executed through the tool
handler in reply order and the gathered responses form one message; a
reply without function calls stops the loop and is parsed as the final
JSON result; and when the cap is reached the last reply is parsed as
final. -/
theorem call_with_tools_spec (pt : String → Except String PVal)
    (handler : String → PDict → Except String PVal)
    (replies : Nat → Vertex.GReply) :
    (Vertex.call_with_tools pt handler replies).1.length ≤
      Vertex.MAX_ITERATIONS ∧
    (∀ (k : Nat) (turn : Vertex.LoopTurn),
      (Vertex.call_with_tools pt handler replies).1[k]? = some turn →
      turn.calls = Vertex.extract_function_calls (replies k) ∧
      turn.calls ≠ [] ∧
      turn.responses = turn.calls.map (Vertex.exec_tool handler)) ∧
    ((Vertex.call_with_tools pt handler replies).1.length <
        Vertex.MAX_ITERATIONS →
      Vertex.extract_function_calls (replies
        (Vertex.call_with_tools pt handler replies).1.length) = [] ∧
      (Vertex.call_with_tools pt handler replies).2 =
        Vertex.parse_response pt (replies
          (Vertex.call_with_tools pt handler replies).1.length)) ∧
    ((Vertex.call_with_tools pt handler replies).1.length =
        Vertex.MAX_ITERATIONS →
      (Vertex.call_with_tools pt handler replies).2 =
        Vertex.parse_response pt (replies Vertex.MAX_ITERATIONS)) := by
  have h := cwtLoop_spec pt handler replies Vertex.MAX_ITERATIONS 0
  simpa [Vertex.call_with_tools, Nat.zero_add] using h

/-- Witness for the C4 check: a conversation whose first reply makes
one tool call and whose second reply is plain text runs exactly one
turn and parses the second reply. -/
theorem call_with_tools_spec_witness :
    (Vertex.call_with_tools Fixtures.parseText1 Fixtures.handler1
      Fixtures.replies1).1.length = 1 ∧
    Vertex.extract_function_calls (Fixtures.replies1 1) = [] ∧
    (Vertex.call_with_tools Fixtures.parseText1 Fixtures.handler1
      Fixtures.replies1).2 =
      Vertex.parse_response Fixtures.parseText1 (Fixtures.replies1 1) := by
  have h := call_with_tools_spec Fixtures.parseText1 Fixtures.handler1
    Fixtures.replies1
  have hlen : (Vertex.call_with_tools Fixtures.parseText1 Fixtures.handler1
      Fixtures.replies1).1.length = 1 := rfl
  obtain ⟨he, hp⟩ := h.2.2.1 (by rw [hlen]; decide)
  exact ⟨hlen, by rwa [hlen] at he, by rwa [hlen] at hp⟩

/-- C8 counterexample: a catalog holding 51 active `phrase_sense` rows
labelled `give up`.  The claim says at most 50 rows come back for
phrase queries too, but `_query_phrase_senses` has no LIMIT clause and
returns all 51. -/
theorem phrase_query_returns_51 :
    (MCP.query_fine_units Fixtures.phraseDb "give up" "phrase_sense"
      none "en").candidates.length = 51 := rfl

/-- C8 (amended): the candidate list is exactly the catalog rows whose
label matches the lemma case-insensitively with matching kind, lang and
status `active` (plus, for word queries, the translated pos filter);
the `LIMIT 50` applies to `word_sense` queries only — `phrase_sense`
queries return every matching row. -/
theorem query_fine_units_spec (db : List MCP.FineUnitRow) (lem : String)
    (pos : Option String) (lang : String) :
    (∀ c, c ∈ (MCP.query_fine_units db lem "phrase_sense" pos
        lang).candidates ↔
      ∃ r, r ∈ db ∧ r.kind = "phrase_sense" ∧
        lowerStr r.label = lowerStr lem ∧ r.lang = lang ∧
        r.status = "active" ∧
        c = { fine_id := r.id, label := r.label, pos := none,
              definition := r.defn }) ∧
    ((MCP.query_fine_units db lem "word_sense" pos
        lang).candidates.length ≤ 50) ∧
    (∀ c, c ∈ (MCP.query_fine_units db lem "word_sense" pos
        lang).candidates →
      ∃ r, r ∈ db ∧ MCP.wordCond lem lang (MCP.dbPosOf pos) r = true ∧
        c = { fine_id := r.id, label := r.label, pos := some r.pos,
              definition := r.defn }) ∧
    ((db.filter (MCP.wordCond lem lang (MCP.dbPosOf pos))).length ≤ 50 →
      ∀ r, r ∈ db → MCP.wordCond lem lang (MCP.dbPosOf pos) r = true →
        ({ fine_id := r.id, label := r.label, pos := some r.pos,
           definition := r.defn } : MCP.FineCandidate) ∈
          (MCP.query_fine_units db lem "word_sense" pos
            lang).candidates) := by
  have hkp : (MCP.query_fine_units db lem "phrase_sense" pos
      lang).candidates = MCP.queryPhraseSenses db lem lang := rfl
  have hkw : (MCP.query_fine_units db lem "word_sense" pos
      lang).candidates = MCP.queryWordSenses db lem pos lang := rfl
  refine ⟨?_, ?_, ?_, ?_⟩
  · intro c
    rw [hkp]
    constructor
    · intro hc
      rw [MCP.queryPhraseSenses, List.mem_map] at hc
      obtain ⟨r, hr, hproj⟩ := hc
      rw [List.mem_filter] at hr
      obtain ⟨hrdb, hcond⟩ := hr
      rw [MCP.phraseCond] at hcond
      simp only [Bool.and_eq_true, beq_iff_eq] at hcond
      exact ⟨r, hrdb, hcond.1.1.1, hcond.1.1.2, hcond.1.2, hcond.2,
        hproj.symm⟩
    · rintro ⟨r, hrdb, h1, h2, h3, h4, rfl⟩
      rw [MCP.queryPhraseSenses, List.mem_map]
      refine ⟨r, ?_, rfl⟩
      rw [List.mem_filter, MCP.phraseCond]
      simp [hrdb, h1, h2, h3, h4]
  · rw [hkw, MCP.queryWordSenses]
    simp only [List.length_map, List.length_take]
    exact Nat.min_le_left _ _
  · intro c hc
    rw [hkw, MCP.queryWordSenses, List.mem_map] at hc
    obtain ⟨r, hr, hproj⟩ := hc
    have hr2 := List.mem_mergeSort.mp (List.mem_of_mem_take hr)
    rw [List.mem_filter] at hr2
    exact ⟨r, hr2.1, hr2.2, hproj.symm⟩
  · intro h50 r hrdb hcond
    rw [hkw, MCP.queryWordSenses, List.mem_map]
    refine ⟨r, ?_, rfl⟩
    rw [List.take_of_length_le (by
      rw [List.length_mergeSort]
      exact h50)]
    rw [List.mem_mergeSort, List.mem_filter]
    exact ⟨hrdb, hcond⟩

/-- Witness for the C8 check: a one-row word catalog with capitalised
label `Run`; the lower-cased query with pos `v` returns its
projection. -/
theorem query_fine_units_spec_witness :
    ({ fine_id := 3, label := "Run", pos := some (some "v"),
       definition := "move fast" } : MCP.FineCandidate) ∈
      (MCP.query_fine_units Fixtures.wordDb "run" "word_sense"
        (some "v") "en").candidates := by
  have h := query_fine_units_spec Fixtures.wordDb "run" (some "v") "en"
  exact h.2.2.2 (by decide)
    ({ id := 3, kind := "word_sense", label := "Run", lang := "en",
       pos := some "v", defn := "move fast", status := "active",
       external_key := none } : MCP.FineUnitRow)
    (by simp [Fixtures.wordDb]) (by decide)
